import Mathlib

/-!
Verification of the client-side sign-in state machine and credential cache
of the MyDID Android auth repository (`AuthRepository.kt`).

Part 1: the credential cache codec.  Kotlin strings are modelled as lists of
characters so that splitting and lexicographic comparison are fully
inspectable.  `toStringSet` and `parseCredentials` follow the source line by
line: encoding produces records `"<i>;<id>;<publicKey>"` collected into an
insertion-ordered set, decoding splits each record on the semicolon,
destructures the first three fields, sorts by the index *string* (Kotlin
`sortedBy` on the `String` component) and drops the index.
-/

abbrev Str := List Char

/-- Credential record from the API layer: an id and a public key. -/
structure Credential where
  id : Str
  publicKey : Str
deriving DecidableEq, Repr

/-- Kotlin string interpolation of a nonnegative integer. -/
def natToStr (n : Nat) : Str := (Nat.repr n).toList

/-- A record with an arbitrary key in front: `"<key>;<id>;<publicKey>"`. -/
def keyedRecord (k : Str) (c : Credential) : Str :=
  k ++ ';' :: (c.id ++ ';' :: c.publicKey)

/-- One encoded record, Kotlin template "$index;${credential.id};${credential.publicKey}". -/
def encodeRecord (i : Nat) (c : Credential) : Str :=
  keyedRecord (natToStr i) c

/-- Kotlin `String.split(";")`: split on every delimiter, keep empty pieces. -/
def splitOnChar (delim : Char) : Str → List Str
  | [] => [[]]
  | c :: rest =>
    if c = delim then [] :: splitOnChar delim rest
    else
      match splitOnChar delim rest with
      | [] => [[c]]
      | h :: t => (c :: h) :: t

/-- Helper for `dedupKeepFirst`: keep elements not yet seen, in order. -/
def dedupAux : List Str → List Str → List Str
  | [], _ => []
  | s :: rest, seen =>
    if s ∈ seen then dedupAux rest seen else s :: dedupAux rest (s :: seen)

/-- Kotlin `toSet()` builds a `LinkedHashSet`: first occurrences, in order. -/
def dedupKeepFirst (l : List Str) : List Str := dedupAux l []

/-- `List<Credential>.toStringSet()` from the source. -/
def toStringSet (l : List Credential) : List Str :=
  dedupKeepFirst (l.mapIdx encodeRecord)

/-- Kotlin destructuring `val (index, id, publicKey) = s.split(";")`:
components 1..3 of the list; fewer than three elements is an
`IndexOutOfBoundsException`, extra elements are silently ignored. -/
def parseRecord (s : Str) : Option (Str × Credential) :=
  match splitOnChar ';' s with
  | index :: id :: publicKey :: _ => some (index, ⟨id, publicKey⟩)
  | _ => none

/-- Kotlin `String` comparison (`compareTo < 0`), lexicographic by char. -/
def strLtB (a b : Str) : Bool :=
  match a, b with
  | [], [] => false
  | [], _ :: _ => true
  | _ :: _, [] => false
  | x :: xs, y :: ys => if x < y then true else if y < x then false else strLtB xs ys

/-- Ordering used by `sortedBy \x7b (index, _) -> index \x7d`: nondecreasing index strings. -/
def keyLe (p q : Str × Credential) : Prop := strLtB q.1 p.1 = false

instance : DecidableRel keyLe := fun p q =>
  inferInstanceAs (Decidable (strLtB q.1 p.1 = false))

/-- Kotlin `set.map \x7b ... \x7d` over the records: the first record whose
destructuring throws aborts the whole read. -/
def parseAll : List Str → Option (List (Str × Credential))
  | [] => some []
  | s :: rest =>
    match parseRecord s, parseAll rest with
    | some p, some ps => some (p :: ps)
    | _, _ => none

/-- `parseCredentials` from the source: parse every record (failure on any
record aborts the whole read), stably sort by the index string, drop it. -/
def parseCredentials (set : List Str) : Option (List Credential) :=
  (parseAll set).map (fun pairs =>
    (List.insertionSort keyLe pairs).map (fun p => p.2))

theorem splitOnChar_nil (d : Char) : splitOnChar d [] = [[]] := rfl

theorem splitOnChar_ne_nil (d : Char) (s : Str) : splitOnChar d s ≠ [] := by
  cases s with
  | nil => simp [splitOnChar]
  | cons c rest =>
    simp only [splitOnChar]
    split
    · simp
    · split <;> simp

theorem splitOnChar_append (a rest : Str) (h : ';' ∉ a) :
    splitOnChar ';' (a ++ ';' :: rest) = a :: splitOnChar ';' rest := by
  induction a with
  | nil => simp [splitOnChar]
  | cons c a ih =>
    have hc : ¬ (c = ';') := fun e => h (e ▸ List.mem_cons_self c a)
    have h' : ';' ∉ a := fun m => h (List.mem_cons_of_mem _ m)
    simp only [List.cons_append, splitOnChar, if_neg hc]
    rw [List.append_eq, ih h']

theorem splitOnChar_no_delim (a : Str) (h : ';' ∉ a) :
    splitOnChar ';' a = [a] := by
  induction a with
  | nil => rfl
  | cons c a ih =>
    have hc : ¬ (c = ';') := fun e => h (e ▸ List.mem_cons_self c a)
    have h' : ';' ∉ a := fun m => h (List.mem_cons_of_mem _ m)
    simp only [splitOnChar, if_neg hc, ih h']

theorem parseRecord_keyed (k : Str) (c : Credential)
    (hk : ';' ∉ k) (hid : ';' ∉ c.id) (hpk : ';' ∉ c.publicKey) :
    parseRecord (keyedRecord k c) = some (k, c) := by
  unfold parseRecord keyedRecord
  rw [splitOnChar_append _ _ hk, splitOnChar_append _ _ hid,
    splitOnChar_no_delim _ hpk]

theorem splitOnChar_keyed_head (k k' : Str) (c c' : Credential)
    (hk : ';' ∉ k) (hk' : ';' ∉ k')
    (h : keyedRecord k c = keyedRecord k' c') : k = k' := by
  have h2 : splitOnChar ';' (keyedRecord k c) = splitOnChar ';' (keyedRecord k' c') := by
    rw [h]
  unfold keyedRecord at h2
  rw [splitOnChar_append _ _ hk, splitOnChar_append _ _ hk'] at h2
  exact (List.cons.injEq _ _ _ _ ▸ h2).1

theorem mem_zipWith_keyed (r : Str) :
    ∀ (ks : List Str) (l : List Credential),
      r ∈ List.zipWith keyedRecord ks l → ∃ k c, k ∈ ks ∧ r = keyedRecord k c := by
  intro ks
  induction ks with
  | nil => intro l h; simp at h
  | cons k ks ih =>
    intro l h
    cases l with
    | nil => simp at h
    | cons c l =>
      simp only [List.zipWith_cons_cons, List.mem_cons] at h
      cases h with
      | inl h => exact ⟨k, c, List.mem_cons_self _ _, h⟩
      | inr h =>
        obtain ⟨k', c', hk', hr⟩ := ih l h
        exact ⟨k', c', List.mem_cons_of_mem _ hk', hr⟩

theorem nodup_zipWith_keyed :
    ∀ (ks : List Str) (l : List Credential), ks.Nodup → (∀ k ∈ ks, ';' ∉ k) →
      (List.zipWith keyedRecord ks l).Nodup := by
  intro ks
  induction ks with
  | nil => intro l _ _; simp
  | cons k ks ih =>
    intro l hnd hfree
    cases l with
    | nil => simp
    | cons c l =>
      simp only [List.zipWith_cons_cons]
      refine List.Nodup.cons ?_ (ih l (List.Nodup.of_cons hnd) ?_)
      · intro hmem
        obtain ⟨k', c', hk', hr⟩ := mem_zipWith_keyed _ ks l hmem
        have hkk : k = k' := splitOnChar_keyed_head k k' c c'
          (hfree k (List.mem_cons_self _ _)) (hfree k' (List.mem_cons_of_mem _ hk')) hr
        exact (List.nodup_cons.mp hnd).1 (hkk ▸ hk')
      · intro k' hk'; exact hfree k' (List.mem_cons_of_mem _ hk')

theorem dedupAux_eq_self :
    ∀ (l seen : List Str), (∀ s ∈ l, s ∉ seen) → l.Nodup → dedupAux l seen = l := by
  intro l
  induction l with
  | nil => intro seen _ _; rfl
  | cons s rest ih =>
    intro seen hseen hnd
    obtain ⟨hs, hrest⟩ := List.nodup_cons.mp hnd
    simp only [dedupAux, if_neg (hseen s (List.mem_cons_self _ _))]
    rw [ih (s :: seen) ?_ hrest]
    intro t ht
    simp only [List.mem_cons]
    rintro (e | e)
    · exact hs (e ▸ ht)
    · exact hseen t (List.mem_cons_of_mem _ ht) e

theorem dedupKeepFirst_eq_self (l : List Str) (h : l.Nodup) : dedupKeepFirst l = l :=
  dedupAux_eq_self l [] (fun s _ => List.not_mem_nil s) h

theorem parseAll_keyed :
    ∀ (ks : List Str) (l : List Credential), ks.length = l.length →
      (∀ k ∈ ks, ';' ∉ k) → (∀ c ∈ l, ';' ∉ c.id ∧ ';' ∉ c.publicKey) →
      parseAll (List.zipWith keyedRecord ks l) = some (ks.zip l) := by
  intro ks
  induction ks with
  | nil => intro l _ _ _; simp [parseAll]
  | cons k ks ih =>
    intro l hlen hkfree hcfree
    cases l with
    | nil => simp at hlen
    | cons c l =>
      have hc := hcfree c (List.mem_cons_self _ _)
      have hrec := parseRecord_keyed k c (hkfree k (List.mem_cons_self _ _)) hc.1 hc.2
      have htail := ih l (by simpa using hlen)
        (fun k' hk' => hkfree k' (List.mem_cons_of_mem _ hk'))
        (fun c' hc' => hcfree c' (List.mem_cons_of_mem _ hc'))
      simp only [List.zipWith_cons_cons, parseAll, hrec, htail, List.zip_cons_cons]

theorem sorted_zip_keys :
    ∀ (ks : List Str) (l : List Credential),
      List.Pairwise (fun a b => strLtB b a = false) ks →
      List.Sorted keyLe (ks.zip l) := by
  intro ks
  induction ks with
  | nil => intro l _; simp [List.Sorted]
  | cons k ks ih =>
    intro l hp
    cases l with
    | nil => simp [List.Sorted]
    | cons c l =>
      obtain ⟨hhead, htail⟩ := List.pairwise_cons.mp hp
      simp only [List.zip_cons_cons, List.Sorted, List.pairwise_cons]
      exact ⟨fun q hq => hhead q.1 (List.of_mem_zip hq).1, ih l htail⟩

theorem rangeKeys_props (n : Nat) (hn : n ≤ 10) :
    (∀ k ∈ (List.range n).map natToStr, ';' ∉ k) ∧
      ((List.range n).map natToStr).Nodup ∧
      List.Pairwise (fun a b => strLtB b a = false) ((List.range n).map natToStr) := by
  interval_cases n <;> exact ⟨by decide, by decide, by decide⟩

theorem mapIdx_encode_eq_zipWith (l : List Credential) :
    l.mapIdx encodeRecord =
      List.zipWith keyedRecord ((List.range l.length).map natToStr) l := by
  rw [List.mapIdx_eq_enum_map, List.enum_eq_zip_range, List.map_uncurry_zip_eq_zipWith,
    List.zipWith_map_left]
  rfl

theorem roundTrip_upto10 (l : List Credential) (hlen : l.length ≤ 10)
    (hfree : ∀ c ∈ l, ';' ∉ c.id ∧ ';' ∉ c.publicKey) :
    parseCredentials (toStringSet l) = some l := by
  obtain ⟨hkfree, hknodup, hkpair⟩ := rangeKeys_props l.length hlen
  have hlenks : ((List.range l.length).map natToStr).length = l.length := by
    simp
  unfold toStringSet parseCredentials
  rw [mapIdx_encode_eq_zipWith,
    dedupKeepFirst_eq_self _ (nodup_zipWith_keyed _ l hknodup hkfree),
    parseAll_keyed _ l hlenks hkfree hfree]
  simp only [Option.map_some']
  rw [List.Sorted.insertionSort_eq (sorted_zip_keys _ l hkpair)]
  rw [show (fun p : Str × Credential => p.2) = Prod.snd from rfl,
    List.map_snd_zip _ _ (le_of_eq hlenks.symm)]

theorem parseRecord_eq_none (s : Str) (h : (splitOnChar ';' s).length < 3) :
    parseRecord s = none := by
  unfold parseRecord
  rcases hsp : splitOnChar ';' s with _ | ⟨a, _ | ⟨b, _ | ⟨c, t⟩⟩⟩
  · rfl
  · rfl
  · rfl
  · rw [hsp] at h; simp at h; omega

theorem parseAll_none_of_mem :
    ∀ (l : List Str) (s : Str), s ∈ l → parseRecord s = none → parseAll l = none := by
  intro l
  induction l with
  | nil => intro s h _; simp at h
  | cons a rest ih =>
    intro s hmem hnone
    rcases List.mem_cons.mp hmem with he | ht
    · simp [parseAll, he ▸ hnone]
    · rw [parseAll, ih s ht hnone]
      cases parseRecord a <;> rfl

/-- An eleven-element credential list with unique, delimiter-free ids: the
string sort of the indices puts record 10 between records 1 and 2. -/
def elevenCreds : List Credential :=
  [⟨['a'], ['p']⟩, ⟨['b'], ['p']⟩, ⟨['c'], ['p']⟩, ⟨['d'], ['p']⟩, ⟨['e'], ['p']⟩,
   ⟨['f'], ['p']⟩, ⟨['g'], ['p']⟩, ⟨['h'], ['p']⟩, ⟨['i'], ['p']⟩, ⟨['j'], ['p']⟩,
   ⟨['k'], ['p']⟩]

/-- C1: the round-trip law as stated fails on the code.  `parseCredentials`
sorts by the index *string*, so with eleven credentials record 10 sorts
between records 1 and 2; and a public key containing the delimiter is
silently truncated even though every id is unique and delimiter-free. -/
theorem c1_counterexample :
    (¬ parseCredentials (toStringSet elevenCreds) = some elevenCreds) ∧
      (¬ parseCredentials (toStringSet [⟨['a'], ['p', ';', 'q']⟩]) =
        some [⟨['a'], ['p', ';', 'q']⟩]) := by
  constructor
  · decide
  · decide

/-- C1 (amended): for every ordered sequence of at most ten Credentials with
unique, delimiter-free ids and delimiter-free public keys, decoding the
encoded string set returns the original sequence in the original order:
parseCredentials (toStringSet x) = some x. -/
theorem c1_roundtrip_upto_ten (l : List Credential) (hlen : l.length ≤ 10)
    (hids : (l.map Credential.id).Nodup)
    (hfree : ∀ c ∈ l, ';' ∉ c.id ∧ ';' ∉ c.publicKey) :
    parseCredentials (toStringSet l) = some l :=
  roundTrip_upto10 l hlen hfree

/-- C1 witness: the round trip on a concrete three-credential list. -/
theorem c1_roundtrip_witness :
    ([⟨['a'], ['p']⟩, ⟨['b'], ['q']⟩, ⟨['c'], ['r']⟩] : List Credential).length ≤ 10 ∧
      parseCredentials (toStringSet [⟨['a'], ['p']⟩, ⟨['b'], ['q']⟩, ⟨['c'], ['r']⟩]) =
        some [⟨['a'], ['p']⟩, ⟨['b'], ['q']⟩, ⟨['c'], ['r']⟩] :=
  ⟨by decide, c1_roundtrip_upto_ten _ (by decide) (by decide) (by decide)⟩

/-- C8: decoding does not raise on every malformed record.  A record with
four fields (wrong field count) is silently truncated to a credential, and a
record with a non-numeric index is accepted, sorted by the index string. -/
theorem c8_counterexample :
    parseCredentials [['0', ';', 'i', ';', 'p', ';', 'x']] = some [⟨['i'], ['p']⟩] ∧
      parseCredentials [['z', ';', 'i', ';', 'p']] = some [⟨['i'], ['p']⟩] := by
  constructor
  · decide
  · decide

/-- C8 (amended): decoding fails, and the failure propagates to the whole
read, exactly when some record splits into fewer than three fields; records
with more than three fields are silently truncated and non-numeric indices
are accepted (the failing half is stated here; the accepting half is the
counterexample). -/
theorem c8_short_record_propagates (records : List Str) (s : Str)
    (hmem : s ∈ records) (hshort : (splitOnChar ';' s).length < 3) :
    parseCredentials records = none := by
  unfold parseCredentials
  rw [parseAll_none_of_mem records s hmem (parseRecord_eq_none s hshort)]
  rfl

/-- C8 witness: a two-field record poisons the whole read. -/
theorem c8_short_record_witness :
    (['0', ';', 'i'] ∈ [['a', ';', 'b', ';', 'c'], ['0', ';', 'i']] ∧
        (splitOnChar ';' ['0', ';', 'i']).length < 3) ∧
      parseCredentials [['a', ';', 'b', ';', 'c'], ['0', ';', 'i']] = none :=
  ⟨⟨by decide, by decide⟩,
    c8_short_record_propagates _ ['0', ';', 'i'] (by decide) (by decide)⟩

/-!
Part 2: the sign-in state machine.  The `SharedPreferences` record is
modelled as four optional fields (`getString(key, null)` yields `none` when
the key is absent); each repository operation is a pure function from the
persisted record and the outcome of its external collaborators (API client,
platform ceremony) to the new record, the broadcast sign-in states, the
error-log entries and a crash flag for uncaught exceptions (`!!` on a
missing value, or an exception with no matching catch clause).
-/

/-- SignInState sealed class from `SignInState.kt` (per the spec's data model). -/
inductive SignInState where
  | SignedOut : SignInState
  | SigningIn (username : String) : SignInState
  | SignedIn (username : String) (token : String) : SignInState
  | SignInError (error : String) : SignInState
deriving DecidableEq, Repr

/-- The persisted auth record: the four SharedPreferences keys used by the
repository (username, token, credentials, local_credential_id). -/
structure Prefs where
  username : Option String
  token : Option String
  credentials : Option (List String)
  localCredentialId : Option String
deriving DecidableEq, Repr

/-- The store with no keys set. -/
def emptyPrefs : Prefs := ⟨none, none, none, none⟩

/-- Kotlin `ApiException`: carries an optional message. -/
structure ApiError where
  message : Option String
deriving DecidableEq, Repr

/-- Kotlin `CharSequence?.isNullOrBlank()`. -/
def isNullOrBlank : Option String → Bool
  | none => true
  | some s => s.toList.all Char.isWhitespace

/-- Observable outcome of one repository operation: the resulting store, the
states broadcast to listeners, the error-log entries, and whether an
exception escaped uncaught (crashing the worker thread). -/
structure OpResult where
  prefs : Prefs
  notified : List SignInState
  logs : List String
  crashed : Bool
deriving DecidableEq, Repr

/-- Derivation of the current sign-in state in `getSignInState()`:
`username.isNullOrBlank() -> SignedOut`, `token.isNullOrBlank() ->
SigningIn(username)`, otherwise `SignedIn(username, token)`. -/
def getSignInStateValue (p : Prefs) : SignInState :=
  match p.username with
  | none => .SignedOut
  | some u =>
    if u.toList.all Char.isWhitespace then .SignedOut
    else
      match p.token with
      | none => .SigningIn u
      | some t => if t.toList.all Char.isWhitespace then .SigningIn u else .SignedIn u t

/-- `invokeSignInStateListeners`: snapshot the listener list, then call each
listener once with the state.  Delivery is modelled as the list of
(listener, state) messages. -/
def invokeSignInStateListeners (listeners : List Nat) (state : SignInState) :
    List (Nat × SignInState) :=
  (listeners.map id).map (fun l => (l, state))

/-- Deliver every broadcast of an operation to the registered listeners. -/
def deliverAll (listeners : List Nat) (events : List SignInState) :
    List (Nat × SignInState) :=
  (events.map (invokeSignInStateListeners listeners)).flatten

/-- The messages a given observer receives. -/
def messagesTo (o : Nat) (msgs : List (Nat × SignInState)) : List (Nat × SignInState) :=
  msgs.filter (fun m => m.1 = o)

/-- Default message used when the API error carries none. -/
def defaultPasswordErrorMsg : String := "사용자 로그인에 실패했습니다."

/-- `username(username, sending)`: send the name to the API; on success store
the returned name and notify `SigningIn(username)` (the argument, not the
stored result); an `ApiException` is uncaught (only `finally` is present). -/
def usernameOp (p : Prefs) (username : String) (api : Except ApiError String) : OpResult :=
  match api with
  | .ok result => ⟨{ p with username := some result }, [.SigningIn username], [], false⟩
  | .error _ => ⟨p, [], [], true⟩

/-- `password(password, processing)`: read the stored username (`!!`), call
the API; on success commit the token, then commit the server-returned
username, then notify `SignedIn(pre-swap username, token)`; on
`ApiException` remove username/token/credentials and notify
`SignInError(message or default)`. -/
def passwordOp (p : Prefs) (api : Except ApiError (String × String)) : OpResult :=
  match p.username with
  | none => ⟨p, [], [], true⟩
  | some username =>
    match api with
    | .ok (token, username2) =>
      ⟨{ p with token := some token, username := some username2 },
        [.SignedIn username token], [], false⟩
    | .error e =>
      ⟨{ p with username := none, token := none, credentials := none },
        [.SignInError (e.message.getD defaultPasswordErrorMsg)],
        ["로그인 자격 증명이 잘못 되었습니다."], false⟩

/-- `clearToken()`: read the username (`!!`), remove token and credentials,
notify `SigningIn(username)`. -/
def clearTokenOp (p : Prefs) : OpResult :=
  match p.username with
  | none => ⟨p, [], [], true⟩
  | some username =>
    ⟨{ p with token := none, credentials := none }, [.SigningIn username], [], false⟩

/-- `signOut()`: remove username, token and credentials, notify `SignedOut`. -/
def signOutOp (p : Prefs) : OpResult :=
  ⟨{ p with username := none, token := none, credentials := none }, [.SignedOut], [], false⟩

/-- `registerRequest(processing)`: no-op without a FIDO2 client; otherwise
read token and username (`!!`), call the API and await the platform intent.
Every exception in the try block (including the `!!` reads) is caught by
`catch (e: Exception)` and logged; the store is never written and no state
is ever broadcast. -/
def registerRequestOp (p : Prefs) (hasClient : Bool)
    (ceremony : Except ApiError String) : OpResult :=
  if hasClient then
    match p.token, p.username with
    | some _, some _ =>
      match ceremony with
      | .ok _challenge => ⟨p, [], [], false⟩
      | .error _ => ⟨p, [], ["registerRequest를 호출할 수 없습니다."], false⟩
    | _, _ => ⟨p, [], ["registerRequest를 호출할 수 없습니다."], false⟩
  else ⟨p, [], [], false⟩

/-- `registerResponse(data, processing)`: read token (`!!`) and the pending
challenge (`!!`) — both uncaught on absence since only `ApiException` is
caught — then call the API; on success store the encoded credential set and
the local credential id; on `ApiException` log and change nothing.  No state
is ever broadcast. -/
def registerResponseOp (p : Prefs) (challenge : Option String) (credentialId : String)
    (api : Except ApiError (List String)) : OpResult :=
  match p.token with
  | none => ⟨p, [], [], true⟩
  | some _ =>
    match challenge with
    | none => ⟨p, [], [], true⟩
    | some _ =>
      match api with
      | .ok creds =>
        ⟨{ p with credentials := some creds, localCredentialId := some credentialId },
          [], [], false⟩
      | .error _ => ⟨p, [], ["registerResponse를 호출할 수 없습니다."], false⟩

/-- `signinRequest(processing)`: no-op without a FIDO2 client; otherwise read
username (`!!`) and the stored local credential id, call the API and await
the platform intent.  The try block has no catch clause at all, so any
failure propagates uncaught and unlogged; the store is never written and no
state is ever broadcast. -/
def signinRequestOp (p : Prefs) (hasClient : Bool)
    (ceremony : Except ApiError String) : OpResult :=
  if hasClient then
    match p.username with
    | none => ⟨p, [], [], true⟩
    | some _ =>
      match ceremony with
      | .ok _challenge => ⟨p, [], [], false⟩
      | .error _ => ⟨p, [], [], true⟩
  else ⟨p, [], [], false⟩

/-- The arguments `signinRequest` passes to `api.signinRequest`: the stored
username and the stored local credential id. -/
def signinRequestApiArgs (p : Prefs) : Option (String × Option String) :=
  match p.username with
  | none => none
  | some u => some (u, p.localCredentialId)

/-- `signinResponse(data, processing)`: read username (`!!`) and the pending
challenge (`!!`), call the API; on success commit token, credential set and
local credential id together, then notify `SignedIn(username, token)`; on
`ApiException` log (with the copy-pasted registerResponse message) and
change nothing. -/
def signinResponseOp (p : Prefs) (challenge : Option String) (credentialId : String)
    (api : Except ApiError (List String × String)) : OpResult :=
  match p.username with
  | none => ⟨p, [], [], true⟩
  | some username =>
    match challenge with
    | none => ⟨p, [], [], true⟩
    | some _ =>
      match api with
      | .ok (creds, token) =>
        ⟨{ p with
            token := some token
            credentials := some creds
            localCredentialId := some credentialId },
          [.SignedIn username token], [], false⟩
      | .error _ => ⟨p, [], ["registerResponse를 호출할 수 없습니다."], false⟩

/-- One durable write batch (`prefs.edit \x7b ... \x7d`) performed by the
operations `username`, `password`, `clearToken`, `signOut`,
`registerResponse` and `signinResponse`, at commit granularity: the success
path of `password` issues two separate commits (token first, then the
server-returned username), each other operation commits one batch.  The
side conditions record the `!!` reads that must succeed for the code to
reach the write. -/
inductive Commit : Prefs → Prefs → Prop where
  | usernameOk (p : Prefs) (result : String) :
      Commit p { p with username := some result }
  | passwordToken (p : Prefs) (u token : String) (h : p.username = some u) :
      Commit p { p with token := some token }
  | passwordUsername2 (p : Prefs) (u username2 : String) (h : p.username = some u) :
      Commit p { p with username := some username2 }
  | passwordFail (p : Prefs) (u : String) (h : p.username = some u) :
      Commit p { p with username := none, token := none, credentials := none }
  | clearToken (p : Prefs) (u : String) (h : p.username = some u) :
      Commit p { p with token := none, credentials := none }
  | signOut (p : Prefs) :
      Commit p { p with username := none, token := none, credentials := none }
  | registerResponseOk (p : Prefs) (t : String) (creds : List String) (cid : String)
      (h : p.token = some t) :
      Commit p { p with credentials := some creds, localCredentialId := some cid }
  | signinResponseOk (p : Prefs) (u token : String) (creds : List String) (cid : String)
      (h : p.username = some u) :
      Commit p { p with
        token := some token
        credentials := some creds
        localCredentialId := some cid }

/-- Store contents reachable from the empty store by the write batches of
the repository operations. -/
inductive Reachable : Prefs → Prop where
  | init : Reachable emptyPrefs
  | step {p q : Prefs} : Reachable p → Commit p q → Reachable q

/-- C2: the derived state is not a pure function of mere presence/absence of
the fields.  With the blank username "" present alongside a token, the claim
requires SignedIn("", "t"), but the code derives SignedOut because it tests
`isNullOrBlank`, not absence. -/
theorem c2_counterexample :
    getSignInStateValue ⟨some "", some "t", none, none⟩ = SignInState.SignedOut ∧
      SignInState.SignedOut ≠ SignInState.SignedIn "" "t" := by
  constructor
  · rfl
  · decide

/-- C2 (amended): the derived state is a pure function of the record where
presence means present and non-blank: username absent or blank gives
SignedOut; username present non-blank with token absent or blank gives
SigningIn(username); both present and non-blank gives
SignedIn(username, token). -/
theorem c2_derived_state (p : Prefs) :
    (isNullOrBlank p.username = true → getSignInStateValue p = .SignedOut) ∧
      (∀ u, p.username = some u → u.toList.all Char.isWhitespace = false →
        isNullOrBlank p.token = true → getSignInStateValue p = .SigningIn u) ∧
      (∀ u t, p.username = some u → u.toList.all Char.isWhitespace = false →
        p.token = some t → t.toList.all Char.isWhitespace = false →
        getSignInStateValue p = .SignedIn u t) := by
  refine ⟨?_, ?_, ?_⟩
  · intro h
    cases hu : p.username with
    | none => unfold getSignInStateValue; rw [hu]
    | some u =>
      rw [hu] at h
      simp only [isNullOrBlank] at h
      unfold getSignInStateValue
      rw [hu]
      simp only [if_pos h]
  · intro u hu hblank htok
    simp only [getSignInStateValue, hu]
    rw [if_neg (by rw [hblank]; exact Bool.false_ne_true)]
    cases ht : p.token with
    | none => rfl
    | some t =>
      rw [ht] at htok
      simp only [isNullOrBlank] at htok
      simp only [if_pos htok]
  · intro u t hu hublank ht htblank
    simp only [getSignInStateValue, hu]
    rw [if_neg (by rw [hublank]; exact Bool.false_ne_true)]
    simp only [ht]
    rw [if_neg (by rw [htblank]; exact Bool.false_ne_true)]

/-- C2 witness: concrete stores for the three amended cases. -/
theorem c2_derived_state_witness :
    getSignInStateValue ⟨none, none, none, none⟩ = .SignedOut ∧
      getSignInStateValue ⟨some "alice", none, none, none⟩ = .SigningIn "alice" ∧
      getSignInStateValue ⟨some "alice", some "tok", none, none⟩ = .SignedIn "alice" "tok" :=
  ⟨(c2_derived_state ⟨none, none, none, none⟩).1 (by decide),
    (c2_derived_state ⟨some "alice", none, none, none⟩).2.1 "alice" rfl (by decide) (by decide),
    (c2_derived_state ⟨some "alice", some "tok", none, none⟩).2.2 "alice" "tok" rfl (by decide)
      rfl (by decide)⟩

/-- C3: when the API reports a password mismatch, `password` removes
username, token and credential set from the store and then broadcasts
`SignInError` with the server message, or the default message when the
server provides none. -/
theorem c3_password_failure_reset (p : Prefs) (u : String) (e : ApiError)
    (hu : p.username = some u) :
    (passwordOp p (.error e)).prefs =
        ⟨none, none, none, p.localCredentialId⟩ ∧
      (passwordOp p (.error e)).notified =
        [.SignInError (e.message.getD defaultPasswordErrorMsg)] ∧
      (∀ m, e.message = some m →
        (passwordOp p (.error e)).notified = [.SignInError m]) ∧
      (e.message = none →
        (passwordOp p (.error e)).notified = [.SignInError defaultPasswordErrorMsg]) := by
  refine ⟨?_, ?_, ?_, ?_⟩
  · simp [passwordOp, hu]
  · simp [passwordOp, hu]
  · intro m hm; simp [passwordOp, hu, hm]
  · intro hm; simp [passwordOp, hu, hm]

/-- C3 witness: a concrete failed password attempt, with and without a
server message. -/
theorem c3_password_failure_witness :
    (passwordOp ⟨some "alice", some "t0", some ["c"], some "cid"⟩
        (.error ⟨some "bad password"⟩)).prefs = ⟨none, none, none, some "cid"⟩ ∧
      (passwordOp ⟨some "alice", some "t0", some ["c"], some "cid"⟩
        (.error ⟨some "bad password"⟩)).notified = [.SignInError "bad password"] ∧
      (passwordOp ⟨some "alice", none, none, none⟩ (.error ⟨none⟩)).notified =
        [.SignInError defaultPasswordErrorMsg] :=
  ⟨(c3_password_failure_reset ⟨some "alice", some "t0", some ["c"], some "cid"⟩
      "alice" ⟨some "bad password"⟩ rfl).1,
    (c3_password_failure_reset ⟨some "alice", some "t0", some ["c"], some "cid"⟩
      "alice" ⟨some "bad password"⟩ rfl).2.2.1 "bad password" rfl,
    (c3_password_failure_reset ⟨some "alice", none, none, none⟩
      "alice" ⟨none⟩ rfl).2.2.2 rfl⟩

/-- C4: from every starting store, `signOut` removes username, token and
credentials, the derived state of the resulting store is SignedOut, and the
single broadcast delivered to the observers is SignedOut. -/
theorem c4_signOut (p : Prefs) :
    (signOutOp p).prefs = ⟨none, none, none, p.localCredentialId⟩ ∧
      getSignInStateValue (signOutOp p).prefs = .SignedOut ∧
      (signOutOp p).notified = [.SignedOut] := by
  refine ⟨rfl, rfl, rfl⟩

/-- C9: after a successful `password`, the store holds the server-returned
username (`username2`) and the new token, while the broadcast carries the
pre-swap username read from the store before the API call. -/
theorem c9_username_swap (p : Prefs) (u token username2 : String)
    (hu : p.username = some u) :
    (passwordOp p (.ok (token, username2))).prefs =
        ⟨some username2, some token, p.credentials, p.localCredentialId⟩ ∧
      (passwordOp p (.ok (token, username2))).notified = [.SignedIn u token] := by
  constructor
  · simp [passwordOp, hu]
  · simp [passwordOp, hu]

/-- C9 witness: the stored name and the notified name differ. -/
theorem c9_username_swap_witness :
    (passwordOp ⟨some "alice", none, none, none⟩ (.ok ("tok", "alice@server"))).prefs =
        ⟨some "alice@server", some "tok", none, none⟩ ∧
      (passwordOp ⟨some "alice", none, none, none⟩
        (.ok ("tok", "alice@server"))).notified = [.SignedIn "alice" "tok"] :=
  ⟨(c9_username_swap ⟨some "alice", none, none, none⟩ "alice" "tok" "alice@server" rfl).1,
    (c9_username_swap ⟨some "alice", none, none, none⟩ "alice" "tok" "alice@server" rfl).2⟩

/-- C5: in every store reachable from the empty store by the write batches
of the repository operations, a present token implies a present username.
Note the mechanism differs from the spec's parenthetical: on password
success the token batch commits *before* the username2 batch, but the
username needed was already present as a precondition of that path. -/
theorem c5_token_implies_username (p : Prefs) (hr : Reachable p) :
    ∀ t, p.token = some t → ∃ u, p.username = some u := by
  induction hr with
  | init => intro t ht; exact absurd ht (by simp [emptyPrefs])
  | step _ hc ih =>
    intro t ht
    cases hc with
    | usernameOk result => exact ⟨result, rfl⟩
    | passwordToken u token h => exact ⟨u, h⟩
    | passwordUsername2 u username2 h => exact ⟨username2, rfl⟩
    | passwordFail u h => exact absurd ht (by simp)
    | clearToken u h => exact absurd ht (by simp)
    | signOut => exact absurd ht (by simp)
    | registerResponseOk t' creds cid h => exact ih t ht
    | signinResponseOk u token creds cid h => exact ⟨u, h⟩

/-- C5 witness: a concrete reachable store holding a token (empty store,
then the username batch, then the password token batch) has a username. -/
theorem c5_token_implies_username_witness :
    ∃ u, (Prefs.mk (some "alice") (some "tok") none none).username = some u :=
  c5_token_implies_username (Prefs.mk (some "alice") (some "tok") none none)
    (Reachable.step
      (Reachable.step Reachable.init (Commit.usernameOk emptyPrefs "alice"))
      (Commit.passwordToken (Prefs.mk (some "alice") none none none) "alice" "tok" rfl))
    "tok" rfl

/-- C6: the claim fails for `signinRequest`.  Its try block has no catch
clause, so a failing API exchange is NOT logged (the exception escapes and
kills the worker); the store and broadcasts are untouched, but the claimed
logging does not happen. -/
theorem c6_counterexample :
    (signinRequestOp ⟨some "alice", none, none, some "cid"⟩ true
        (.error ⟨some "network down"⟩)).logs = [] ∧
      (signinRequestOp ⟨some "alice", none, none, some "cid"⟩ true
        (.error ⟨some "network down"⟩)).crashed = true ∧
      (signinRequestOp ⟨some "alice", none, none, some "cid"⟩ true
        (.error ⟨some "network down"⟩)).prefs = ⟨some "alice", none, none, some "cid"⟩ ∧
      (signinRequestOp ⟨some "alice", none, none, some "cid"⟩ true
        (.error ⟨some "network down"⟩)).notified = [] :=
  ⟨rfl, rfl, rfl, rfl⟩

/-- C6 (amended): when the ceremony or API exchange of a registration or
credential-sign-in operation fails, the persisted record is unchanged and
nothing is broadcast (in particular no SignInError); `registerRequest`,
`registerResponse` and `signinResponse` log the failure, while a
`signinRequest` failure propagates uncaught without being logged. -/
theorem c6_ceremony_failures (p : Prefs) (e : ApiError) :
    ((registerRequestOp p true (.error e)).prefs = p ∧
        (registerRequestOp p true (.error e)).notified = [] ∧
        (registerRequestOp p true (.error e)).logs ≠ []) ∧
      (∀ t ch cid, p.token = some t →
        (registerResponseOp p (some ch) cid (.error e)).prefs = p ∧
          (registerResponseOp p (some ch) cid (.error e)).notified = [] ∧
          (registerResponseOp p (some ch) cid (.error e)).logs ≠ []) ∧
      (∀ u, p.username = some u →
        (signinRequestOp p true (.error e)).prefs = p ∧
          (signinRequestOp p true (.error e)).notified = [] ∧
          (signinRequestOp p true (.error e)).logs = [] ∧
          (signinRequestOp p true (.error e)).crashed = true) ∧
      (∀ u ch cid, p.username = some u →
        (signinResponseOp p (some ch) cid (.error e)).prefs = p ∧
          (signinResponseOp p (some ch) cid (.error e)).notified = [] ∧
          (signinResponseOp p (some ch) cid (.error e)).logs ≠ []) := by
  refine ⟨?_, ?_, ?_, ?_⟩
  · cases ht : p.token with
    | none => cases hu : p.username <;> simp [registerRequestOp, ht, hu]
    | some t => cases hu : p.username <;> simp [registerRequestOp, ht, hu]
  · intro t ch cid ht
    simp [registerResponseOp, ht]
  · intro u hu
    simp [signinRequestOp, hu]
  · intro u ch cid hu
    simp [signinResponseOp, hu]

/-- C6 witness: all four failure paths at a concrete signed-in store. -/
theorem c6_ceremony_failures_witness :
    ((registerRequestOp ⟨some "a", some "t", none, none⟩ true (.error ⟨none⟩)).prefs =
        ⟨some "a", some "t", none, none⟩ ∧
      (registerRequestOp ⟨some "a", some "t", none, none⟩ true (.error ⟨none⟩)).notified = [] ∧
      (registerRequestOp ⟨some "a", some "t", none, none⟩ true (.error ⟨none⟩)).logs ≠ []) ∧
    ((registerResponseOp ⟨some "a", some "t", none, none⟩ (some "ch") "cid"
        (.error ⟨none⟩)).prefs = ⟨some "a", some "t", none, none⟩ ∧
      (registerResponseOp ⟨some "a", some "t", none, none⟩ (some "ch") "cid"
        (.error ⟨none⟩)).notified = [] ∧
      (registerResponseOp ⟨some "a", some "t", none, none⟩ (some "ch") "cid"
        (.error ⟨none⟩)).logs ≠ []) ∧
    ((signinRequestOp ⟨some "a", some "t", none, none⟩ true (.error ⟨none⟩)).logs = [] ∧
      (signinRequestOp ⟨some "a", some "t", none, none⟩ true (.error ⟨none⟩)).crashed = true) ∧
    ((signinResponseOp ⟨some "a", some "t", none, none⟩ (some "ch") "cid"
        (.error ⟨none⟩)).prefs = ⟨some "a", some "t", none, none⟩ ∧
      (signinResponseOp ⟨some "a", some "t", none, none⟩ (some "ch") "cid"
        (.error ⟨none⟩)).logs ≠ []) :=
  ⟨(c6_ceremony_failures ⟨some "a", some "t", none, none⟩ ⟨none⟩).1,
    (c6_ceremony_failures ⟨some "a", some "t", none, none⟩ ⟨none⟩).2.1 "t" "ch" "cid" rfl,
    ⟨((c6_ceremony_failures ⟨some "a", some "t", none, none⟩ ⟨none⟩).2.2.1 "a" rfl).2.2.1,
      ((c6_ceremony_failures ⟨some "a", some "t", none, none⟩ ⟨none⟩).2.2.1 "a" rfl).2.2.2⟩,
    ⟨((c6_ceremony_failures ⟨some "a", some "t", none, none⟩ ⟨none⟩).2.2.2 "a" "ch" "cid" rfl).1,
      ((c6_ceremony_failures ⟨some "a", some "t", none, none⟩ ⟨none⟩).2.2.2 "a" "ch" "cid" rfl).2.2⟩⟩

/-- C7: every operation that completes a state transition broadcasts exactly
one state; the no-op paths (failed username request, both FIDO2 requests,
registerResponse on any outcome, failed signinResponse) broadcast nothing;
and delivering one broadcast to two distinct registered observers gives
each observer exactly one message, both carrying the same state. -/
theorem c7_notifications :
    (∀ (p : Prefs) (u r : String), (usernameOp p u (.ok r)).notified = [.SigningIn u]) ∧
      (∀ (p : Prefs) (u : String) (api : Except ApiError (String × String)),
        p.username = some u → (passwordOp p api).notified.length = 1) ∧
      (∀ (p : Prefs) (u : String), p.username = some u →
        (clearTokenOp p).notified = [.SigningIn u]) ∧
      (∀ p : Prefs, (signOutOp p).notified = [.SignedOut]) ∧
      (∀ (p : Prefs) (u ch cid : String) (creds : List String) (token : String),
        p.username = some u →
        (signinResponseOp p (some ch) cid (.ok (creds, token))).notified =
          [.SignedIn u token]) ∧
      (∀ (p : Prefs) (u : String) (e : ApiError),
        (usernameOp p u (.error e)).notified = []) ∧
      (∀ (p : Prefs) (hc : Bool) (cer : Except ApiError String),
        (registerRequestOp p hc cer).notified = []) ∧
      (∀ (p : Prefs) (ch : Option String) (cid : String)
        (api : Except ApiError (List String)),
        (registerResponseOp p ch cid api).notified = []) ∧
      (∀ (p : Prefs) (hc : Bool) (cer : Except ApiError String),
        (signinRequestOp p hc cer).notified = []) ∧
      (∀ (p : Prefs) (ch : Option String) (cid : String) (e : ApiError),
        (signinResponseOp p ch cid (.error e)).notified = []) ∧
      (∀ (a b : Nat) (s : SignInState), a ≠ b →
        messagesTo a (deliverAll [a, b] [s]) = [(a, s)] ∧
          messagesTo b (deliverAll [a, b] [s]) = [(b, s)]) := by
  refine ⟨?_, ?_, ?_, ?_, ?_, ?_, ?_, ?_, ?_, ?_, ?_⟩
  · intro p u r; rfl
  · intro p u api hu
    cases api with
    | ok v => cases v with | mk tok u2 => simp [passwordOp, hu]
    | error e => simp [passwordOp, hu]
  · intro p u hu; simp [clearTokenOp, hu]
  · intro p; rfl
  · intro p u ch cid creds token hu; simp [signinResponseOp, hu]
  · intro p u e; rfl
  · intro p hc cer
    cases hc with
    | false => rfl
    | true =>
      cases ht : p.token with
      | none => cases hu : p.username <;> simp [registerRequestOp, ht, hu]
      | some t =>
        cases hu : p.username with
        | none => simp [registerRequestOp, ht, hu]
        | some u => cases cer <;> simp [registerRequestOp, ht, hu]
  · intro p ch cid api
    cases ht : p.token with
    | none => simp [registerResponseOp, ht]
    | some t =>
      cases ch with
      | none => simp [registerResponseOp, ht]
      | some c => cases api <;> simp [registerResponseOp, ht]
  · intro p hc cer
    cases hc with
    | false => rfl
    | true =>
      cases hu : p.username with
      | none => simp [signinRequestOp, hu]
      | some u => cases cer <;> simp [signinRequestOp, hu]
  · intro p ch cid e
    cases hu : p.username with
    | none => simp [signinResponseOp, hu]
    | some u =>
      cases ch with
      | none => simp [signinResponseOp, hu]
      | some c => simp [signinResponseOp, hu]
  · intro a b s hab
    constructor
    · simp [messagesTo, deliverAll, invokeSignInStateListeners, List.filter_cons,
        hab, Ne.symm hab]
    · simp [messagesTo, deliverAll, invokeSignInStateListeners, List.filter_cons,
        hab, Ne.symm hab]

/-- C7 witness: a sign-out transition at a concrete store broadcasts one
state, and two distinct observers each receive exactly one message with
that state; a failed register request broadcasts nothing. -/
theorem c7_notifications_witness :
    (signOutOp ⟨some "a", some "t", none, none⟩).notified = [.SignedOut] ∧
      messagesTo 1 (deliverAll [1, 2] [.SignedOut]) = [(1, .SignedOut)] ∧
      messagesTo 2 (deliverAll [1, 2] [.SignedOut]) = [(2, .SignedOut)] ∧
      (passwordOp ⟨some "a", none, none, none⟩
        (.error ⟨none⟩)).notified.length = 1 ∧
      (registerRequestOp ⟨some "a", some "t", none, none⟩ true
        (.error ⟨none⟩)).notified = [] :=
  ⟨c7_notifications.2.2.2.1 ⟨some "a", some "t", none, none⟩,
    (c7_notifications.2.2.2.2.2.2.2.2.2.2 1 2 SignInState.SignedOut (by decide)).1,
    (c7_notifications.2.2.2.2.2.2.2.2.2.2 1 2 SignInState.SignedOut (by decide)).2,
    c7_notifications.2.1 ⟨some "a", none, none, none⟩ "a" (.error ⟨none⟩) rfl,
    c7_notifications.2.2.2.2.2.2.1 ⟨some "a", some "t", none, none⟩ true (.error ⟨none⟩)⟩

/-- C10: neither `signOut` nor the failed-password hard reset removes the
persisted local credential id, and a subsequent credential sign-in request
(after re-entering a username) reads the stored id and passes exactly it to
the API. -/
theorem c10_local_credential_id_preserved (p : Prefs) (u : String) (e : ApiError)
    (hu : p.username = some u) :
    (signOutOp p).prefs.localCredentialId = p.localCredentialId ∧
      (passwordOp p (.error e)).prefs.localCredentialId = p.localCredentialId ∧
      (∀ (name result : String),
        signinRequestApiArgs (usernameOp (signOutOp p).prefs name (.ok result)).prefs =
          some (result, p.localCredentialId)) ∧
      signinRequestApiArgs p = some (u, p.localCredentialId) := by
  refine ⟨rfl, ?_, ?_, ?_⟩
  · simp [passwordOp, hu]
  · intro name result
    simp [signinRequestApiArgs, usernameOp, signOutOp]
  · simp [signinRequestApiArgs, hu]

/-- C10 witness: a concrete store keeps its local credential id across
sign-out and failed password, and the sign-in request reuses it. -/
theorem c10_local_credential_id_witness :
    (signOutOp ⟨some "a", some "t", some ["c"], some "cid"⟩).prefs.localCredentialId =
        some "cid" ∧
      (passwordOp ⟨some "a", some "t", some ["c"], some "cid"⟩
        (.error ⟨none⟩)).prefs.localCredentialId = some "cid" ∧
      signinRequestApiArgs ⟨some "a", some "t", some ["c"], some "cid"⟩ =
        some ("a", some "cid") :=
  ⟨(c10_local_credential_id_preserved ⟨some "a", some "t", some ["c"], some "cid"⟩
      "a" ⟨none⟩ rfl).1,
    (c10_local_credential_id_preserved ⟨some "a", some "t", some ["c"], some "cid"⟩
      "a" ⟨none⟩ rfl).2.1,
    (c10_local_credential_id_preserved ⟨some "a", some "t", some ["c"], some "cid"⟩
      "a" ⟨none⟩ rfl).2.2.2⟩
